import Mathlib

/-!
Verification development for the Daily Viewer plugin (src/main.ts).

The core under verification is `DailyViewerView.refresh`: it filters the
vault's markdown files through a moment.js round-trip date matcher
(`moment(basename, fmt).isValid() && parsed.format(fmt) === basename`),
sorts the matches by date with `Array.prototype.sort` (stable) using
`diff`, and synchronizes a single `.daily-viewer-content` container
(find-or-create, then `empty()`, then repopulate in order).

The moment.js model below embeds the behaviour of non-strict
`moment(string, format)` for the numeric tokens `YYYY`, `MM`, `M`, `DD`,
`D` (every other pattern character is a literal), which is the token
vocabulary exercised by the plugin's default pattern and by the spec's
examples.  It reproduces moment's documented non-strict semantics:
each numeric token consumes the first digit run found in the remaining
input (up to the token's width), unmatched literals and leftover input
are tolerated, units above the highest parsed unit default to the
current date, units below default to their minimum (January / day 1),
and validity requires both that at least one format token matched some
input (moment's `empty` parsing flag — a parse in which no token
matched anything is invalid regardless of defaults) and an overflow
check (month 1..12, day 1..daysInMonth, leap years included).  The
dependence of parsing on the current date is made explicit by the
`now : DateKey` parameter.
-/

namespace DailyViewer

/-- A calendar date key: the totally ordered value produced by the matcher.
Months and days are 1-based. -/
structure DateKey where
  year : Nat
  month : Nat
  day : Nat
deriving DecidableEq, Repr

/-- Format-pattern tokens: the numeric date tokens understood by the model
(`YYYY`, `MM`, `M`, `DD`, `D`) plus literal characters. -/
inductive FToken where
  | tokYYYY : FToken
  | tokMM : FToken
  | tokM : FToken
  | tokDD : FToken
  | tokD : FToken
  | lit : Char → FToken
deriving DecidableEq, Repr

/-- Tokenize a pattern string, longest token first (as moment's formatting
token regex does for these tokens). -/
def tokenize : List Char → List FToken
  | 'Y' :: 'Y' :: 'Y' :: 'Y' :: rest => .tokYYYY :: tokenize rest
  | 'M' :: 'M' :: rest => .tokMM :: tokenize rest
  | 'D' :: 'D' :: rest => .tokDD :: tokenize rest
  | 'M' :: rest => .tokM :: tokenize rest
  | 'D' :: rest => .tokD :: tokenize rest
  | c :: rest => .lit c :: tokenize rest
  | [] => []

/-- Numeric value of a list of decimal digit characters. -/
def digitsToNat (ds : List Char) : Nat :=
  ds.foldl (fun acc c => acc * 10 + (c.toNat - '0'.toNat)) 0

/-- Take up to `n` leading digits off a character list. -/
def grabDigits : Nat → List Char → List Char × List Char
  | 0, s => ([], s)
  | _ + 1, [] => ([], [])
  | n + 1, c :: rest =>
    if c.isDigit then
      let p := grabDigits n rest
      (c :: p.1, p.2)
    else ([], c :: rest)

/-- Moment's non-strict numeric token match: the regex is unanchored, so the
first digit run anywhere in the remaining input is used (skipped characters
are tolerated unused input); at most `maxLen` digits are consumed.  `none`
when the input has no digits at all. -/
def findDigits (maxLen : Nat) : List Char → Option (Nat × List Char)
  | [] => none
  | c :: rest =>
    if c.isDigit then
      let p := grabDigits maxLen (c :: rest)
      some (digitsToNat p.1, p.2)
    else findDigits maxLen rest

/-- Consume the remaining input up to and past the first occurrence of a
literal character; `none` when absent. -/
def splitAtChar (c : Char) : List Char → Option (List Char)
  | [] => none
  | x :: rest => if x == c then some rest else splitAtChar c rest

/-- Non-strict literal handling: an absent literal is an unused token and
consumes nothing. -/
def consumeLit (c : Char) (s : List Char) : List Char :=
  (splitAtChar c s).getD s

/-- The raw parse state: which of year / month / day were set by a token. -/
structure RawParse where
  py : Option Nat
  pm : Option Nat
  pd : Option Nat
deriving DecidableEq, Repr

/-- Run one pattern token over the parse state and the remaining input. -/
def stepToken : RawParse × List Char → FToken → RawParse × List Char
  | (r, s), .tokYYYY =>
    match findDigits 4 s with
    | none => (r, s)
    | some (v, rest) => ({ r with py := some v }, rest)
  | (r, s), .tokMM =>
    match findDigits 2 s with
    | none => (r, s)
    | some (v, rest) => ({ r with pm := some v }, rest)
  | (r, s), .tokM =>
    match findDigits 2 s with
    | none => (r, s)
    | some (v, rest) => ({ r with pm := some v }, rest)
  | (r, s), .tokDD =>
    match findDigits 2 s with
    | none => (r, s)
    | some (v, rest) => ({ r with pd := some v }, rest)
  | (r, s), .tokD =>
    match findDigits 2 s with
    | none => (r, s)
    | some (v, rest) => ({ r with pd := some v }, rest)
  | (r, s), .lit c => (r, consumeLit c s)

/-- Parse a basename against a pattern: run every pattern token over the
input, collecting whichever units the tokens managed to set. -/
def rawParse (b p : String) : RawParse :=
  ((tokenize p.toList).foldl stepToken (⟨none, none, none⟩, b.toList)).1

/-- Moment's defaulting rule (`configFromArray`): units above the highest
parsed unit come from the current date, missing units at or below it
default to January / day 1; with no parsed units at all the result is the
current date. -/
def applyDefaults (r : RawParse) (now : DateKey) : DateKey :=
  match r.py, r.pm, r.pd with
  | some y, pm, pd => ⟨y, pm.getD 1, pd.getD 1⟩
  | none, some m, pd => ⟨now.year, m, pd.getD 1⟩
  | none, none, some d => ⟨now.year, now.month, d⟩
  | none, none, none => now

/-- Gregorian leap year test. -/
def isLeap (y : Nat) : Bool :=
  y % 4 == 0 && (y % 100 != 0 || y % 400 == 0)

/-- Days in a month, leap years included. -/
def daysInMonth (y m : Nat) : Nat :=
  if m == 2 then (if isLeap y then 29 else 28)
  else if m == 4 || m == 6 || m == 9 || m == 11 then 30
  else 31

/-- Moment's overflow check: the date is valid when the month is 1..12 and
the day fits the month of the (defaulted) year. -/
def validDate (k : DateKey) : Bool :=
  1 ≤ k.month && k.month ≤ 12 && 1 ≤ k.day && k.day ≤ daysInMonth k.year k.month

/-- The model of `moment(basename, fmt)` followed by `isValid()`.  A parse
is valid only if some format token matched input: moment clears its
`empty` parsing flag exactly when a recognized token consumes a non-empty
match, and `isValid()` rejects when the flag is still set.  In this token
vocabulary a token that matches always sets its unit, so the flag is
clear iff some unit was set.  A non-empty parse then takes defaults from
the current date and must pass the overflow check. -/
def parseMoment (b p : String) (now : DateKey) : Option DateKey :=
  let r := rawParse b p
  if r.py.isNone && r.pm.isNone && r.pd.isNone then none
  else
    let k := applyDefaults r now
    if validDate k then some k else none

/-- A run of `n` zero characters. -/
def zeros : Nat → String
  | 0 => ""
  | n + 1 => "0" ++ zeros n

/-- Zero-pad a number to width `w` (moment's `zeroFill`). -/
def pad (w n : Nat) : String :=
  zeros (w - (toString n).length) ++ toString n

/-- Render one format token from a date key (moment's `format`). -/
def renderToken (k : DateKey) : FToken → String
  | .tokYYYY => pad 4 k.year
  | .tokMM => pad 2 k.month
  | .tokM => toString k.month
  | .tokDD => pad 2 k.day
  | .tokD => toString k.day
  | .lit c => String.singleton c

/-- Render a token list from a date key. -/
def renderTokens (k : DateKey) : List FToken → String
  | [] => ""
  | t :: ts => renderToken k t ++ renderTokens k ts

/-- The model of `moment.format(fmt)` on a valid date. -/
def formatDate (p : String) (k : DateKey) : String :=
  renderTokens k (tokenize p.toList)

/-- Lines 79-83 of src/main.ts: the matcher accepts a basename exactly when
it parses to a valid date whose reformatting with the same pattern is
byte-identical to the basename, and then yields that date as the key.
Parse or format failures are `none` (the `try`/`catch` returns `false`). -/
def matchDate (b p : String) (now : DateKey) : Option DateKey :=
  match parseMoment b p now with
  | none => none
  | some k => if formatDate p k == b then some k else none

/-- A malformed pattern in the spec's sense: no recognizable date tokens.
Formalized as: every token is a literal whose character is not a letter.
All of moment's format tokens are alphabetic, so a pattern satisfying this
is pure literal text for the real library exactly as for this model (the
non-letter requirement keeps patterns built from tokens outside the
modelled vocabulary, such as time or two-digit-year tokens, out of
scope). -/
def litOnly (p : String) : Bool :=
  (tokenize p.toList).all fun t =>
    match t with
    | .lit c => !c.isAlpha
    | _ => false

/-- A numeric image of a date key that is order-isomorphic to chronology on
valid dates (month at most 12, day at most 31); the sort comparator's
`diff` has the same sign as the difference of these numbers. -/
def keyNum (k : DateKey) : Nat :=
  k.year * 10000 + k.month * 100 + k.day

/-- A vault file as the refresh engine sees it. -/
structure Doc where
  path : String
  basename : String
  extension : String
deriving DecidableEq, Repr

/-- The configured sort direction. -/
inductive SortOrder where
  | newToOld : SortOrder
  | oldToNew : SortOrder
deriving DecidableEq, Repr

/-- The plugin settings read by `refresh` on every call. -/
structure Settings where
  sortOrder : SortOrder
  dateFormat : String
deriving DecidableEq, Repr

/-- Line 70 of src/main.ts: keep only markdown files. -/
def mdFiles (files : List Doc) : List Doc :=
  files.filter fun f => f.extension == "md"

/-- Lines 74-87 of src/main.ts: keep the files accepted by the matcher. -/
def dateFilter (files : List Doc) (p : String) (now : DateKey) : List Doc :=
  files.filter fun f => (matchDate f.basename p now).isSome

/-- The comparator key used at lines 88-95: the basename parsed again with
the configured pattern (files reaching the sort are matched, hence valid;
the fallback key for an unparseable name is irrelevant there). -/
def sortKey (p : String) (now : DateKey) (f : Doc) : Nat :=
  keyNum ((parseMoment f.basename p now).getD ⟨0, 0, 0⟩)

/-- The boolean order corresponding to the JS comparator at lines 88-95:
`old-to-new` keeps `a` before `b` when `dateA.diff(dateB) <= 0`, otherwise
`dateB.diff(dateA) <= 0`. -/
def cmpLe (st : Settings) (now : DateKey) (a b : Doc) : Bool :=
  match st.sortOrder with
  | .oldToNew => sortKey st.dateFormat now a ≤ sortKey st.dateFormat now b
  | .newToOld => sortKey st.dateFormat now b ≤ sortKey st.dateFormat now a

/-- The comparator order as a decidable relation. -/
def cmpRel (st : Settings) (now : DateKey) (a b : Doc) : Prop :=
  cmpLe st now a b = true

instance decCmpRel (st : Settings) (now : DateKey) : DecidableRel (cmpRel st now) :=
  fun a b => instDecidableEqBool (cmpLe st now a b) true

/-- ECMAScript 2019 requires `Array.prototype.sort` to be stable, and a
stable sort by a total preorder has a unique result, so insertion sort
(stable) is a faithful embedding of it. -/
def jsSort (st : Settings) (now : DateKey) (l : List Doc) : List Doc :=
  l.insertionSort (cmpRel st now)

/-- Lines 70-95 of src/main.ts: the filtered, stably sorted document list. -/
def sortedMatched (files : List Doc) (st : Settings) (now : DateKey) : List Doc :=
  jsSort st now (dateFilter (mdFiles files) st.dateFormat now)

/-- One per-document region inside the content container: the `h2` header
text and, when the content fetch succeeded, the rendered markdown source.
When `vault.read` throws, the loop has already created the header but never
reaches the markdown, leaving `none`. -/
structure Region where
  headerText : String
  markdown : Option String
deriving DecidableEq, Repr

/-- Line 104-108 of src/main.ts: the header text is the basename parsed
again and reformatted with the configured pattern (moment renders an
invalid date as the fixed string). -/
def headerFor (p : String) (now : DateKey) (f : Doc) : String :=
  match parseMoment f.basename p now with
  | none => "Invalid date"
  | some k => formatDate p k

/-- Lines 97-183 of src/main.ts: build the per-document regions in order.
The `await vault.read` at line 127 is not guarded, so a fetch error rejects
the whole async `refresh`: the failing document keeps its partial region
(header only) and no later document is processed. -/
def buildRegions (fetch : Doc → Except String String) (p : String) (now : DateKey) :
    List Doc → List Region
  | [] => []
  | f :: fs =>
    match fetch f with
    | .error _ => [⟨headerFor p now f, none⟩]
    | .ok c => ⟨headerFor p now f, some c⟩ :: buildRegions fetch p now fs

/-- A child of the view container: the fixed header bar (or any other
non-content node) or the `.daily-viewer-content` container with its
per-document regions. -/
inductive DNode where
  | other : String → DNode
  | contentDiv : List Region → DNode
deriving DecidableEq, Repr

/-- The mutable view container (`containerEl.children[1]`). -/
structure ViewState where
  nodes : List DNode
deriving DecidableEq, Repr

/-- Whether `querySelector` finds a content container. -/
def hasContent : List DNode → Bool
  | [] => false
  | .contentDiv _ :: _ => true
  | .other _ :: rest => hasContent rest

/-- Replace the first content container's children (the `empty()` followed
by repopulation). -/
def replaceContent (r : List Region) : List DNode → List DNode
  | [] => []
  | .contentDiv _ :: rest => .contentDiv r :: rest
  | .other t :: rest => .other t :: replaceContent r rest

/-- What `querySelector` returns: the first content container's children. -/
def firstContent : List DNode → Option (List Region)
  | [] => none
  | .contentDiv r :: _ => some r
  | .other _ :: rest => firstContent rest

/-- The number of content containers in the view. -/
def countContent : List DNode → Nat
  | [] => 0
  | .contentDiv _ :: rest => countContent rest + 1
  | .other _ :: rest => countContent rest

/-- Lines 60-183 of src/main.ts: a whole `refresh` call.  Find or create
the single content container, empty it, and repopulate it with one region
per matched document in sorted order. -/
def refresh (s : ViewState) (files : List Doc) (st : Settings) (now : DateKey)
    (fetch : Doc → Except String String) : ViewState :=
  let regions := buildRegions fetch st.dateFormat now (sortedMatched files st now)
  if hasContent s.nodes then ⟨replaceContent regions s.nodes⟩
  else ⟨s.nodes ++ [.contentDiv regions]⟩

end DailyViewer

namespace DailyViewer

/-! Helper lemmas about formatting lengths and the matcher. -/

theorem zeros_length (n : Nat) : (zeros n).length = n := by
  induction n with
  | zero => rfl
  | succ n ih =>
    have h01 : ("0" : String).length = 1 := rfl
    show ("0" ++ zeros n).length = n + 1
    rw [String.length_append, ih, h01]
    omega

theorem pad_length (w n : Nat) : w ≤ (pad w n).length := by
  unfold pad
  rw [String.length_append, zeros_length]
  omega

theorem singleton_length (c : Char) : (String.singleton c).length = 1 := rfl

theorem formatDate_iso (k : DateKey) :
    formatDate "YYYY-MM-DD" k =
      pad 4 k.year ++ (String.singleton '-' ++ (pad 2 k.month ++
        (String.singleton '-' ++ (pad 2 k.day ++ "")))) := rfl

theorem formatDate_iso_length (k : DateKey) : 10 ≤ (formatDate "YYYY-MM-DD" k).length := by
  rw [formatDate_iso]
  simp only [String.length_append, singleton_length]
  have h1 := pad_length 4 k.year
  have h2 := pad_length 2 k.month
  have h3 := pad_length 2 k.day
  have h0 : ("" : String).length = 0 := rfl
  omega

theorem matchDate_iff {b p : String} {now k : DateKey} :
    matchDate b p now = some k ↔ parseMoment b p now = some k ∧ formatDate p k = b := by
  unfold matchDate
  constructor
  · intro hm
    cases h : parseMoment b p now with
    | none => rw [h] at hm; exact absurd hm (by simp)
    | some k2 =>
      rw [h] at hm
      have hm2 : (if formatDate p k2 == b then some k2 else none) = some k := hm
      by_cases hf : formatDate p k2 = b
      · rw [if_pos (beq_iff_eq.mpr hf)] at hm2
        injection hm2 with hm3
        subst hm3
        exact ⟨rfl, hf⟩
      · rw [if_neg (fun hb => hf (beq_iff_eq.mp hb))] at hm2
        exact absurd hm2 (by simp)
  · rintro ⟨hk, hf⟩
    rw [hk]
    show (if formatDate p k == b then some k else none) = some k
    rw [if_pos (beq_iff_eq.mpr hf)]

theorem matchDate_now_indep {b p : String} (h : (rawParse b p).py.isSome = true)
    (n1 n2 : DateKey) : matchDate b p n1 = matchDate b p n2 := by
  have hd : applyDefaults (rawParse b p) n1 = applyDefaults (rawParse b p) n2 := by
    rcases hr : rawParse b p with ⟨py, pm, pd⟩
    rw [hr] at h
    cases py with
    | none => simp at h
    | some y => rfl
  simp only [matchDate, parseMoment]
  rw [hd]

/-- C1: for every basename and pattern, the matcher returns a date key iff
parsing the basename yields a valid date whose reformatting with the same
pattern is byte-identical to the basename; for pattern YYYY-MM-DD, of the
basenames 2024-01-05, 2024-1-5, notes, 2024-01-05-extra exactly the first
is accepted, whatever the current date is. -/
theorem c1_matcher_round_trip :
    (∀ b p : String, ∀ now k : DateKey,
        matchDate b p now = some k ↔ parseMoment b p now = some k ∧ formatDate p k = b)
    ∧ (∀ now : DateKey, matchDate "2024-01-05" "YYYY-MM-DD" now = some ⟨2024, 1, 5⟩)
    ∧ (∀ now : DateKey, matchDate "2024-1-5" "YYYY-MM-DD" now = none)
    ∧ (∀ now : DateKey, matchDate "notes" "YYYY-MM-DD" now = none)
    ∧ (∀ now : DateKey, matchDate "2024-01-05-extra" "YYYY-MM-DD" now = none) := by
  refine ⟨fun b p now k => matchDate_iff, ?_, ?_, ?_, ?_⟩
  · intro now
    rw [matchDate_now_indep (by decide) now ⟨2026, 10, 11⟩]
    decide
  · intro now
    rw [matchDate_now_indep (by decide) now ⟨2026, 10, 11⟩]
    decide
  · intro now
    cases h : matchDate "notes" "YYYY-MM-DD" now with
    | none => rfl
    | some k =>
      exfalso
      have hf : formatDate "YYYY-MM-DD" k = "notes" := (matchDate_iff.mp h).2
      have hlen := formatDate_iso_length k
      rw [hf] at hlen
      have h5 : ("notes" : String).length = 5 := rfl
      omega
  · intro now
    rw [matchDate_now_indep (by decide) now ⟨2026, 10, 11⟩]
    decide

/-- C1 witness: the round-trip law instantiated at a concrete accepted
basename. -/
theorem c1_witness :
    matchDate "2024-01-05" "YYYY-MM-DD" ⟨2026, 10, 11⟩ = some ⟨2024, 1, 5⟩
    ∧ (parseMoment "2024-01-05" "YYYY-MM-DD" ⟨2026, 10, 11⟩ = some ⟨2024, 1, 5⟩
        ∧ formatDate "YYYY-MM-DD" (⟨2024, 1, 5⟩ : DateKey) = "2024-01-05") := by
  refine ⟨c1_matcher_round_trip.2.1 ⟨2026, 10, 11⟩, ?_⟩
  exact (c1_matcher_round_trip.1 "2024-01-05" "YYYY-MM-DD" ⟨2026, 10, 11⟩ ⟨2024, 1, 5⟩).mp
    (c1_matcher_round_trip.2.1 ⟨2026, 10, 11⟩)

end DailyViewer

namespace DailyViewer

/-- C5: a parse or format failure yields no match rather than an error, the
failing basename is silently excluded from the aggregation, and every other
basename is still considered. -/
theorem c5_failure_no_match :
    (∀ (b p : String) (now : DateKey), parseMoment b p now = none →
        matchDate b p now = none)
    ∧ (∀ (p : String) (now : DateKey) (xs ys : List Doc) (f : Doc),
        matchDate f.basename p now = none →
        dateFilter (xs ++ f :: ys) p now = dateFilter (xs ++ ys) p now)
    ∧ (∀ (p : String) (now : DateKey) (files : List Doc) (f : Doc),
        f ∈ files → (matchDate f.basename p now).isSome = true →
        f ∈ dateFilter files p now) := by
  refine ⟨?_, ?_, ?_⟩
  · intro b p now h
    unfold matchDate
    rw [h]
  · intro p now xs ys f h
    unfold dateFilter
    rw [List.filter_append, List.filter_append, List.filter_cons]
    simp [h]
  · intro p now files f hm hs
    exact List.mem_filter.mpr ⟨hm, hs⟩

/-- C5 witness: a non-round-tripping basename between two good ones is
dropped and the others survive. -/
theorem c5_witness :
    matchDate "2024-1-5" "YYYY-MM-DD" ⟨2026, 10, 11⟩ = none
    ∧ dateFilter ([⟨"2024-01-05.md", "2024-01-05", "md"⟩] ++
          (⟨"2024-1-5.md", "2024-1-5", "md"⟩ : Doc) :: [⟨"2024-01-06.md", "2024-01-06", "md"⟩])
        "YYYY-MM-DD" ⟨2026, 10, 11⟩
      = dateFilter ([⟨"2024-01-05.md", "2024-01-05", "md"⟩] ++ [⟨"2024-01-06.md", "2024-01-06", "md"⟩])
        "YYYY-MM-DD" ⟨2026, 10, 11⟩ :=
  ⟨by decide, c5_failure_no_match.2.1 _ _ _ _ _ (by decide)⟩

/-- C10: for every document accepted by the matcher, the rendered date
header equals the document's basename byte for byte. -/
theorem c10_header_equals_basename :
    ∀ (p : String) (now : DateKey) (f : Doc) (k : DateKey),
      matchDate f.basename p now = some k → headerFor p now f = f.basename := by
  intro p now f k h
  obtain ⟨hp, hf⟩ := matchDate_iff.mp h
  unfold headerFor
  rw [hp]
  exact hf

/-- C10 witness: the header of a concrete matched file is its basename. -/
theorem c10_witness :
    matchDate "2024-01-05" "YYYY-MM-DD" ⟨2026, 10, 11⟩ = some ⟨2024, 1, 5⟩
    ∧ headerFor "YYYY-MM-DD" ⟨2026, 10, 11⟩ ⟨"2024-01-05.md", "2024-01-05", "md"⟩
        = "2024-01-05" :=
  ⟨by decide, c10_header_equals_basename "YYYY-MM-DD" ⟨2026, 10, 11⟩
    ⟨"2024-01-05.md", "2024-01-05", "md"⟩ ⟨2024, 1, 5⟩ (by decide)⟩

/-- C8 counterexample: the matcher is not independent of the current time.
With pattern MM-DD the year defaults to the current year, so the basename
02-29 is accepted during a leap year and rejected one year later; the
claim quantifies over every pattern, so it fails as stated. -/
theorem c8_current_time_counterexample :
    matchDate "02-29" "MM-DD" ⟨2024, 1, 1⟩ = some ⟨2024, 2, 29⟩
    ∧ matchDate "02-29" "MM-DD" ⟨2025, 1, 1⟩ = none := by decide

/-- C8 amended: whenever the parse extracts the year from the basename (as
every pattern with a year token does on a basename with digits, e.g.
YYYY-MM-DD), no unit defaults to the current date and two evaluations at
different current times produce identical results. -/
theorem c8_deterministic_when_year_parsed :
    ∀ (b p : String) (n1 n2 : DateKey),
      (rawParse b p).py.isSome = true → matchDate b p n1 = matchDate b p n2 :=
  fun _ _ n1 n2 h => matchDate_now_indep h n1 n2

/-- C8 witness: a concrete pair of evaluation times with identical
results. -/
theorem c8_witness :
    (rawParse "2024-01-05" "YYYY-MM-DD").py.isSome = true
    ∧ matchDate "2024-01-05" "YYYY-MM-DD" ⟨2024, 1, 1⟩
        = matchDate "2024-01-05" "YYYY-MM-DD" ⟨2025, 6, 30⟩ :=
  ⟨by decide, c8_deterministic_when_year_parsed _ _ _ _ (by decide)⟩

theorem foldl_lit_keeps {ts : List FToken} :
    ∀ (r : RawParse) (s : List Char),
      (∀ t ∈ ts, ∃ c, t = FToken.lit c) → (ts.foldl stepToken (r, s)).1 = r := by
  induction ts with
  | nil => intro r s _; rfl
  | cons t ts ih =>
    intro r s h
    obtain ⟨c, rfl⟩ := h t (List.mem_cons_self t ts)
    rw [List.foldl_cons]
    exact ih r (consumeLit c s) (fun t2 ht => h t2 (List.mem_cons_of_mem _ ht))

theorem litOnly_all_lit {p : String} (h : litOnly p = true) :
    ∀ t ∈ tokenize p.toList, ∃ c, t = FToken.lit c := by
  intro t ht
  unfold litOnly at h
  rw [List.all_eq_true] at h
  have hp := h t ht
  cases t with
  | lit c => exact ⟨c, rfl⟩
  | tokYYYY => simp at hp
  | tokMM => simp at hp
  | tokM => simp at hp
  | tokDD => simp at hp
  | tokD => simp at hp

theorem rawParse_no_token {b p : String} (h : litOnly p = true) :
    rawParse b p = ⟨none, none, none⟩ :=
  foldl_lit_keeps _ _ (litOnly_all_lit h)

theorem matchDate_no_token {b p : String} {now : DateKey} (h : litOnly p = true) :
    matchDate b p now = none := by
  unfold matchDate
  have hp : parseMoment b p now = none := by
    simp only [parseMoment, rawParse_no_token h]
    rfl
  rw [hp]

/-- C7: for every malformed pattern (no recognizable date tokens: every
token is a non-letter literal, which real moment — whose format tokens are
all alphabetic — treats as pure literal text just like the model) and
every document list, aggregation yields the empty result set: every
basename fails matching, because no format token matches any input and a
parse in which nothing matched is invalid (moment's empty parsing flag);
the matcher is total, so no exception reaches the caller. -/
theorem c7_malformed_pattern_empty :
    (∀ (p b : String) (now : DateKey), litOnly p = true →
        matchDate b p now = none)
    ∧ (∀ (p : String) (now : DateKey) (files : List Doc), litOnly p = true →
        dateFilter files p now = []) := by
  constructor
  · intro p b now h
    exact matchDate_no_token h
  · intro p now files h
    unfold dateFilter
    rw [List.filter_eq_nil_iff]
    intro f _
    simp [matchDate_no_token h]

/-- C7 witness: a token-free pattern gives an empty aggregation, even for a
basename that is byte-identical to the pattern itself. -/
theorem c7_witness :
    litOnly "????" = true
    ∧ dateFilter [⟨"notes.md", "notes", "md"⟩, ⟨"????.md", "????", "md"⟩]
        "????" ⟨2026, 10, 11⟩ = [] :=
  ⟨by decide, c7_malformed_pattern_empty.2 _ _ _ (by decide)⟩

end DailyViewer

namespace DailyViewer

/-! Helper lemmas about the view container model. -/

theorem refresh_def (s : ViewState) (files : List Doc) (st : Settings) (now : DateKey)
    (fetch : Doc → Except String String) :
    refresh s files st now fetch =
      if hasContent s.nodes then
        ⟨replaceContent (buildRegions fetch st.dateFormat now (sortedMatched files st now)) s.nodes⟩
      else
        ⟨s.nodes ++ [.contentDiv (buildRegions fetch st.dateFormat now (sortedMatched files st now))]⟩ :=
  rfl

theorem replaceContent_idem (r r2 : List Region) :
    ∀ ns : List DNode, replaceContent r (replaceContent r2 ns) = replaceContent r ns
  | [] => rfl
  | .contentDiv _ :: _ => rfl
  | .other t :: rest => by
    simp only [replaceContent]
    rw [replaceContent_idem r r2 rest]

theorem hasContent_replaceContent (r : List Region) :
    ∀ ns, hasContent (replaceContent r ns) = hasContent ns
  | [] => rfl
  | .contentDiv _ :: _ => rfl
  | .other t :: rest => by
    simp only [replaceContent, hasContent]
    exact hasContent_replaceContent r rest

theorem countContent_replaceContent (r : List Region) :
    ∀ ns, countContent (replaceContent r ns) = countContent ns
  | [] => rfl
  | .contentDiv _ :: _ => rfl
  | .other t :: rest => by
    simp only [replaceContent, countContent]
    exact countContent_replaceContent r rest

theorem countContent_zero_of_not : ∀ ns, hasContent ns = false → countContent ns = 0
  | [], _ => rfl
  | .contentDiv _ :: _, h => by simp [hasContent] at h
  | .other t :: rest, h => by
    simp only [hasContent] at h
    simp only [countContent]
    exact countContent_zero_of_not rest h

theorem countContent_one_of_has : ∀ ns, hasContent ns = true → 1 ≤ countContent ns
  | [], h => by simp [hasContent] at h
  | .contentDiv _ :: rest, _ => by
    simp only [countContent]
    omega
  | .other t :: rest, h => by
    simp only [hasContent] at h
    simp only [countContent]
    exact countContent_one_of_has rest h

theorem countContent_append :
    ∀ ns ms, countContent (ns ++ ms) = countContent ns + countContent ms
  | [], ms => by simp only [List.nil_append, countContent]; omega
  | .contentDiv _ :: rest, ms => by
    simp only [List.cons_append, List.append_eq, countContent]
    rw [countContent_append rest ms]
    omega
  | .other t :: rest, ms => by
    simp only [List.cons_append, countContent]
    exact countContent_append rest ms

theorem firstContent_replaceContent (r : List Region) :
    ∀ ns, hasContent ns = true → firstContent (replaceContent r ns) = some r
  | [], h => by simp [hasContent] at h
  | .contentDiv _ :: _, _ => rfl
  | .other t :: rest, h => by
    simp only [hasContent] at h
    simp only [replaceContent, firstContent]
    exact firstContent_replaceContent r rest h

theorem firstContent_append_not (r : List Region) :
    ∀ ns, hasContent ns = false → firstContent (ns ++ [DNode.contentDiv r]) = some r
  | [], _ => rfl
  | .contentDiv _ :: _, h => by simp [hasContent] at h
  | .other t :: rest, h => by
    simp only [hasContent] at h
    simp only [List.cons_append, firstContent]
    exact firstContent_append_not r rest h

theorem replaceContent_append_not (r r2 : List Region) :
    ∀ ns, hasContent ns = false →
      replaceContent r (ns ++ [DNode.contentDiv r2]) = ns ++ [DNode.contentDiv r]
  | [], _ => rfl
  | .contentDiv _ :: _, h => by simp [hasContent] at h
  | .other t :: rest, h => by
    simp only [hasContent] at h
    simp only [List.cons_append, List.append_eq, replaceContent]
    rw [replaceContent_append_not r r2 rest h]

theorem hasContent_append_content (r : List Region) :
    ∀ ns, hasContent (ns ++ [DNode.contentDiv r]) = true
  | [] => rfl
  | .contentDiv _ :: _ => rfl
  | .other t :: rest => by
    simp only [List.cons_append, hasContent]
    exact hasContent_append_content r rest

theorem refresh_of_hasContent (s : ViewState) (files : List Doc) (st : Settings)
    (now : DateKey) (fetch : Doc → Except String String) (h : hasContent s.nodes = true) :
    refresh s files st now fetch =
      ⟨replaceContent (buildRegions fetch st.dateFormat now (sortedMatched files st now)) s.nodes⟩ := by
  rw [refresh_def, if_pos h]

theorem refresh_of_not (s : ViewState) (files : List Doc) (st : Settings)
    (now : DateKey) (fetch : Doc → Except String String) (h : hasContent s.nodes = false) :
    refresh s files st now fetch =
      ⟨s.nodes ++ [.contentDiv (buildRegions fetch st.dateFormat now (sortedMatched files st now))]⟩ := by
  rw [refresh_def, if_neg (by simp [h])]

theorem refresh_hasContent (s : ViewState) (files : List Doc) (st : Settings)
    (now : DateKey) (fetch : Doc → Except String String) :
    hasContent (refresh s files st now fetch).nodes = true := by
  by_cases h : hasContent s.nodes = true
  · rw [refresh_of_hasContent s files st now fetch h]
    show hasContent (replaceContent _ s.nodes) = true
    rw [hasContent_replaceContent]
    exact h
  · rw [refresh_of_not s files st now fetch (by simpa using h)]
    exact hasContent_append_content _ s.nodes

theorem refresh_firstContent (s : ViewState) (files : List Doc) (st : Settings)
    (now : DateKey) (fetch : Doc → Except String String) :
    firstContent (refresh s files st now fetch).nodes
      = some (buildRegions fetch st.dateFormat now (sortedMatched files st now)) := by
  by_cases h : hasContent s.nodes = true
  · rw [refresh_of_hasContent s files st now fetch h]
    exact firstContent_replaceContent _ s.nodes h
  · rw [refresh_of_not s files st now fetch (by simpa using h)]
    exact firstContent_append_not _ s.nodes (by simpa using h)

theorem refresh_idem (s : ViewState) (files : List Doc) (st : Settings)
    (now : DateKey) (fetch : Doc → Except String String) :
    refresh (refresh s files st now fetch) files st now fetch
      = refresh s files st now fetch := by
  by_cases h : hasContent s.nodes = true
  · rw [refresh_of_hasContent s files st now fetch h]
    rw [refresh_of_hasContent _ files st now fetch
      (by simpa [hasContent_replaceContent] using h)]
    exact congrArg ViewState.mk (replaceContent_idem _ _ s.nodes)
  · have h0 : hasContent s.nodes = false := by simpa using h
    rw [refresh_of_not s files st now fetch h0]
    rw [refresh_of_hasContent _ files st now fetch
      (by simpa using hasContent_append_content _ s.nodes)]
    exact congrArg ViewState.mk (replaceContent_append_not _ _ s.nodes h0)

theorem buildRegions_ok (p : String) (now : DateKey) (content : Doc → String) :
    ∀ ds : List Doc, buildRegions (fun d => Except.ok (content d)) p now ds
      = ds.map (fun d => ⟨headerFor p now d, some (content d)⟩)
  | [] => rfl
  | f :: fs => by
    show (⟨headerFor p now f, some (content f)⟩ : Region) ::
        buildRegions (fun d => Except.ok (content d)) p now fs = _
    rw [buildRegions_ok p now content fs]
    rfl

/-- C2: refresh is idempotent — a second call with identical inputs leaves
the container in the same state; after a refresh exactly one content region
exists (given that at most one existed, which onOpen guarantees); and with
all content fetches succeeding its children are one region per matched
document in sorted order, the prior children all replaced. -/
theorem c2_refresh_idempotent :
    (∀ (s : ViewState) (files : List Doc) (st : Settings) (now : DateKey)
        (fetch : Doc → Except String String),
        refresh (refresh s files st now fetch) files st now fetch
          = refresh s files st now fetch)
    ∧ (∀ (s : ViewState) (files : List Doc) (st : Settings) (now : DateKey)
        (fetch : Doc → Except String String), countContent s.nodes ≤ 1 →
        countContent (refresh s files st now fetch).nodes = 1)
    ∧ (∀ (s : ViewState) (files : List Doc) (st : Settings) (now : DateKey)
        (content : Doc → String),
        firstContent (refresh s files st now (fun d => Except.ok (content d))).nodes
          = some ((sortedMatched files st now).map
              (fun f => ⟨headerFor st.dateFormat now f, some (content f)⟩))) := by
  refine ⟨refresh_idem, ?_, ?_⟩
  · intro s files st now fetch hle
    by_cases h : hasContent s.nodes = true
    · rw [refresh_of_hasContent s files st now fetch h]
      show countContent (replaceContent _ s.nodes) = 1
      rw [countContent_replaceContent]
      have h1 := countContent_one_of_has s.nodes h
      omega
    · have h0 : hasContent s.nodes = false := by simpa using h
      rw [refresh_of_not s files st now fetch h0]
      show countContent (s.nodes ++ [DNode.contentDiv _]) = 1
      rw [countContent_append, countContent_zero_of_not s.nodes h0]
      rfl
  · intro s files st now content
    rw [refresh_firstContent, buildRegions_ok]

/-- C2 witness: a freshly opened view (header only, no content region) has
at most one content region, and one refresh leaves exactly one. -/
theorem c2_witness :
    countContent (ViewState.mk [DNode.other "daily-viewer-header"]).nodes ≤ 1
    ∧ countContent (refresh ⟨[DNode.other "daily-viewer-header"]⟩
        [⟨"2024-01-05.md", "2024-01-05", "md"⟩] ⟨.newToOld, "YYYY-MM-DD"⟩ ⟨2026, 10, 11⟩
        (fun _ => Except.ok "text")).nodes = 1 :=
  ⟨by decide, c2_refresh_idempotent.2.1 _ _ _ _ _ (by decide)⟩

/-- C9: a refresh after a refresh re-filters from the full current document
list with the currently configured pattern and direction only — the content
region equals what a fresh build under the new configuration produces, with
no region from the previous pattern surviving; concretely, switching the
pattern from YYYY-MM-DD to DD-MM-YYYY swaps which of two documents appears. -/
theorem c9_refilter_on_pattern_change :
    (∀ (s : ViewState) (files files2 : List Doc) (st st2 : Settings)
        (now now2 : DateKey) (fetch fetch2 : Doc → Except String String),
        firstContent (refresh (refresh s files st now fetch) files2 st2 now2 fetch2).nodes
          = some (buildRegions fetch2 st2.dateFormat now2 (sortedMatched files2 st2 now2)))
    ∧ ((firstContent (refresh (refresh ⟨[]⟩
            [⟨"2024-01-05.md", "2024-01-05", "md"⟩, ⟨"05-01-2024.md", "05-01-2024", "md"⟩]
            ⟨.newToOld, "YYYY-MM-DD"⟩ ⟨2026, 10, 11⟩ (fun _ => Except.ok "x"))
          [⟨"2024-01-05.md", "2024-01-05", "md"⟩, ⟨"05-01-2024.md", "05-01-2024", "md"⟩]
          ⟨.newToOld, "DD-MM-YYYY"⟩ ⟨2026, 10, 11⟩ (fun _ => Except.ok "x")).nodes).getD []).map
        Region.headerText = ["05-01-2024"]
    ∧ ((firstContent (refresh ⟨[]⟩
          [⟨"2024-01-05.md", "2024-01-05", "md"⟩, ⟨"05-01-2024.md", "05-01-2024", "md"⟩]
          ⟨.newToOld, "YYYY-MM-DD"⟩ ⟨2026, 10, 11⟩ (fun _ => Except.ok "x")).nodes).getD []).map
        Region.headerText = ["2024-01-05"] := by
  refine ⟨?_, by decide, by decide⟩
  intro s files files2 st st2 now now2 fetch fetch2
  exact refresh_firstContent _ _ _ _ _

/-- C6 counterexample: a content-fetch failure is not isolated to its
document.  With two matched documents in descending order, a read failure
on the first (2023-01-02) leaves only its partial region: the subsequent
document 2023-01-01, whose own fetch would succeed, is never rendered, so
the claim fails as stated. -/
theorem c6_fetch_abort_counterexample :
    firstContent (refresh ⟨[]⟩
        [⟨"2023-01-01.md", "2023-01-01", "md"⟩, ⟨"2023-01-02.md", "2023-01-02", "md"⟩]
        ⟨.newToOld, "YYYY-MM-DD"⟩ ⟨2026, 10, 11⟩
        (fun d => if d.basename == "2023-01-02" then Except.error "read failed"
          else Except.ok "body")).nodes
      = some [⟨"2023-01-02", none⟩] := by decide

/-- C6 amended: the unguarded `await vault.read` makes a fetch failure
abort the render loop — every document before the failing one (in sort
order) is rendered in full, the failing document keeps a partial region
(header without content), and no later document is processed. -/
theorem c6_fetch_aborts_rest :
    ∀ (p : String) (now : DateKey) (fetch : Doc → Except String String)
      (xs ys : List Doc) (f : Doc) (content : Doc → String) (e : String),
      (∀ x ∈ xs, fetch x = Except.ok (content x)) → fetch f = Except.error e →
      buildRegions fetch p now (xs ++ f :: ys)
        = xs.map (fun d => ⟨headerFor p now d, some (content d)⟩)
          ++ [⟨headerFor p now f, none⟩] := by
  intro p now fetch xs
  induction xs with
  | nil =>
    intro ys f content e _ herr
    show buildRegions fetch p now (f :: ys) = _
    simp only [buildRegions]
    rw [herr]
    rfl
  | cons x xs ih =>
    intro ys f content e hok herr
    have hx : fetch x = Except.ok (content x) := hok x (List.mem_cons_self x xs)
    show buildRegions fetch p now (x :: (xs ++ f :: ys)) = _
    simp only [buildRegions]
    rw [hx, ih ys f content e (fun t ht => hok t (List.mem_cons_of_mem _ ht)) herr]
    rfl

/-- C6 witness: two successful documents, then a failing one, then an
unprocessed one. -/
theorem c6_witness :
    buildRegions
        (fun d => if d.basename == "2023-01-03" then Except.error "boom" else Except.ok "body")
        "YYYY-MM-DD" ⟨2026, 10, 11⟩
        ([⟨"2023-01-01.md", "2023-01-01", "md"⟩, ⟨"2023-01-02.md", "2023-01-02", "md"⟩]
          ++ (⟨"2023-01-03.md", "2023-01-03", "md"⟩ : Doc)
            :: [⟨"2023-01-04.md", "2023-01-04", "md"⟩])
      = [⟨"2023-01-01.md", "2023-01-01", "md"⟩, ⟨"2023-01-02.md", "2023-01-02", "md"⟩].map
          (fun d => ⟨headerFor "YYYY-MM-DD" ⟨2026, 10, 11⟩ d, some "body"⟩)
        ++ [⟨headerFor "YYYY-MM-DD" ⟨2026, 10, 11⟩ ⟨"2023-01-03.md", "2023-01-03", "md"⟩, none⟩] :=
  c6_fetch_aborts_rest "YYYY-MM-DD" ⟨2026, 10, 11⟩ _ _ _ _ (fun _ => "body") "boom"
    (by
      intro x hx
      cases hx with
      | head => rfl
      | tail _ hx2 =>
        cases hx2 with
        | head => rfl
        | tail _ hx3 => cases hx3)
    rfl

end DailyViewer

namespace DailyViewer

/-! Helper lemmas about the comparator order and the stable sort. -/

theorem cmpRel_trans (st : Settings) (now : DateKey) :
    ∀ a b c : Doc, cmpRel st now a b → cmpRel st now b c → cmpRel st now a c := by
  intro a b c h1 h2
  unfold cmpRel cmpLe at h1 h2 ⊢
  cases hso : st.sortOrder with
  | oldToNew =>
    rw [hso] at h1 h2
    exact decide_eq_true (Nat.le_trans (of_decide_eq_true h1) (of_decide_eq_true h2))
  | newToOld =>
    rw [hso] at h1 h2
    exact decide_eq_true (Nat.le_trans (of_decide_eq_true h2) (of_decide_eq_true h1))

theorem cmpRel_total (st : Settings) (now : DateKey) :
    ∀ a b : Doc, cmpRel st now a b ∨ cmpRel st now b a := by
  intro a b
  unfold cmpRel cmpLe
  cases hso : st.sortOrder with
  | oldToNew =>
    rcases Nat.le_total (sortKey st.dateFormat now a) (sortKey st.dateFormat now b) with h | h
    · exact Or.inl (decide_eq_true h)
    · exact Or.inr (decide_eq_true h)
  | newToOld =>
    rcases Nat.le_total (sortKey st.dateFormat now b) (sortKey st.dateFormat now a) with h | h
    · exact Or.inl (decide_eq_true h)
    · exact Or.inr (decide_eq_true h)

theorem sorted_jsSort (st : Settings) (now : DateKey) (l : List Doc) :
    (jsSort st now l).Pairwise (cmpRel st now) := by
  haveI h1 : IsTotal Doc (cmpRel st now) := ⟨cmpRel_total st now⟩
  haveI h2 : IsTrans Doc (cmpRel st now) := ⟨cmpRel_trans st now⟩
  exact List.sorted_insertionSort _ l

theorem jsSort_pairwise_asc (p : String) (now : DateKey) (l : List Doc) :
    (jsSort ⟨.oldToNew, p⟩ now l).Pairwise
      (fun a b => sortKey p now a ≤ sortKey p now b) :=
  (sorted_jsSort ⟨.oldToNew, p⟩ now l).imp (fun hab => of_decide_eq_true hab)

theorem jsSort_pairwise_desc (p : String) (now : DateKey) (l : List Doc) :
    (jsSort ⟨.newToOld, p⟩ now l).Pairwise
      (fun a b => sortKey p now b ≤ sortKey p now a) :=
  (sorted_jsSort ⟨.newToOld, p⟩ now l).imp (fun hab => of_decide_eq_true hab)

theorem jsSort_reverse_of_nodup (p : String) (now : DateKey) (l : List Doc)
    (hnd : (l.map (sortKey p now)).Nodup) :
    jsSort ⟨.oldToNew, p⟩ now l = (jsSort ⟨.newToOld, p⟩ now l).reverse := by
  have permA : List.Perm (jsSort ⟨.oldToNew, p⟩ now l) l := List.perm_insertionSort _ l
  have permD : List.Perm (jsSort ⟨.newToOld, p⟩ now l) l := List.perm_insertionSort _ l
  have hA := jsSort_pairwise_asc p now l
  have hDrev : (jsSort ⟨.newToOld, p⟩ now l).reverse.Pairwise
      (fun a b => sortKey p now a ≤ sortKey p now b) := by
    rw [List.pairwise_reverse]
    exact jsSort_pairwise_desc p now l
  have ndA : ((jsSort ⟨.oldToNew, p⟩ now l).map (sortKey p now)).Nodup :=
    ((permA.map (sortKey p now)).nodup_iff).mpr hnd
  have ndDrev : ((jsSort ⟨.newToOld, p⟩ now l).reverse.map (sortKey p now)).Nodup :=
    ((((jsSort ⟨.newToOld, p⟩ now l).reverse_perm).map (sortKey p now)).trans
      (permD.map (sortKey p now))).nodup_iff.mpr hnd
  have neA : (jsSort ⟨.oldToNew, p⟩ now l).Pairwise
      (fun a b => sortKey p now a ≠ sortKey p now b) := List.pairwise_map.mp ndA
  have neDrev : (jsSort ⟨.newToOld, p⟩ now l).reverse.Pairwise
      (fun a b => sortKey p now a ≠ sortKey p now b) := List.pairwise_map.mp ndDrev
  have strictA : (jsSort ⟨.oldToNew, p⟩ now l).Pairwise
      (fun a b => sortKey p now a < sortKey p now b) :=
    (hA.and neA).imp (fun hab => Nat.lt_of_le_of_ne hab.1 hab.2)
  have strictDrev : (jsSort ⟨.newToOld, p⟩ now l).reverse.Pairwise
      (fun a b => sortKey p now a < sortKey p now b) :=
    (hDrev.and neDrev).imp (fun hab => Nat.lt_of_le_of_ne hab.1 hab.2)
  have hperm : List.Perm (jsSort ⟨.oldToNew, p⟩ now l)
      (jsSort ⟨.newToOld, p⟩ now l).reverse :=
    permA.trans (((jsSort ⟨.newToOld, p⟩ now l).reverse_perm).trans permD).symm
  haveI : IsAntisymm Doc (fun a b => sortKey p now a < sortKey p now b) :=
    ⟨fun a b h1 h2 => absurd (Nat.lt_trans h1 h2) (Nat.lt_irrefl _)⟩
  exact List.eq_of_perm_of_sorted hperm strictA strictDrev

theorem jsSort_filter_key (st : Settings) (now : DateKey) (l : List Doc) (k : Nat) :
    (jsSort st now l).filter (fun f => sortKey st.dateFormat now f == k)
      = l.filter (fun f => sortKey st.dateFormat now f == k) := by
  have hcp : (l.filter (fun f => sortKey st.dateFormat now f == k)).Pairwise
      (cmpRel st now) := by
    have hall : ∀ x ∈ l.filter (fun f => sortKey st.dateFormat now f == k),
        sortKey st.dateFormat now x = k := by
      intro x hx
      exact beq_iff_eq.mp (List.mem_filter.mp hx).2
    apply List.pairwise_of_forall_mem_list
    intro a ha b hb
    have hka := hall a ha
    have hkb := hall b hb
    unfold cmpRel cmpLe
    cases hso : st.sortOrder with
    | oldToNew => exact decide_eq_true (Nat.le_of_eq (hka.trans hkb.symm))
    | newToOld => exact decide_eq_true (Nat.le_of_eq (hkb.trans hka.symm))
  have hsub : List.Sublist (l.filter (fun f => sortKey st.dateFormat now f == k))
      (jsSort st now l) :=
    List.sublist_insertionSort hcp (List.filter_sublist l)
  have hff : (l.filter (fun f => sortKey st.dateFormat now f == k)).filter
      (fun f => sortKey st.dateFormat now f == k)
      = l.filter (fun f => sortKey st.dateFormat now f == k) := by
    rw [List.filter_filter]
    apply List.filter_congr
    intro x _
    rw [Bool.and_self]
  have hsub2 : List.Sublist (l.filter (fun f => sortKey st.dateFormat now f == k))
      ((jsSort st now l).filter (fun f => sortKey st.dateFormat now f == k)) := by
    have hs := hsub.filter (fun f => sortKey st.dateFormat now f == k)
    rwa [hff] at hs
  have hperm : List.Perm
      ((jsSort st now l).filter (fun f => sortKey st.dateFormat now f == k))
      (l.filter (fun f => sortKey st.dateFormat now f == k)) :=
    (List.perm_insertionSort _ l).filter _
  exact (hsub2.eq_of_length hperm.length_eq.symm).symm

/-- C3: refresh orders matched documents by date key according to the
configured direction — old-to-new places earlier dates first, new-to-old
places later dates first; for the matched dates 2023-03-01, 2023-01-10,
2023-02-20 the descending output is 03-01, 02-20, 01-10 and ascending is
the reverse. -/
theorem c3_sort_by_direction :
    (∀ (files : List Doc) (st : Settings) (now : DateKey), st.sortOrder = .oldToNew →
        (sortedMatched files st now).Pairwise
          (fun a b => sortKey st.dateFormat now a ≤ sortKey st.dateFormat now b))
    ∧ (∀ (files : List Doc) (st : Settings) (now : DateKey), st.sortOrder = .newToOld →
        (sortedMatched files st now).Pairwise
          (fun a b => sortKey st.dateFormat now b ≤ sortKey st.dateFormat now a))
    ∧ (sortedMatched
          [⟨"2023-03-01.md", "2023-03-01", "md"⟩, ⟨"2023-01-10.md", "2023-01-10", "md"⟩,
            ⟨"2023-02-20.md", "2023-02-20", "md"⟩]
          ⟨.newToOld, "YYYY-MM-DD"⟩ ⟨2026, 10, 11⟩).map Doc.basename
        = ["2023-03-01", "2023-02-20", "2023-01-10"]
    ∧ (sortedMatched
          [⟨"2023-03-01.md", "2023-03-01", "md"⟩, ⟨"2023-01-10.md", "2023-01-10", "md"⟩,
            ⟨"2023-02-20.md", "2023-02-20", "md"⟩]
          ⟨.oldToNew, "YYYY-MM-DD"⟩ ⟨2026, 10, 11⟩).map Doc.basename
        = ["2023-01-10", "2023-02-20", "2023-03-01"] := by
  refine ⟨?_, ?_, by decide, by decide⟩
  · intro files st now hso
    obtain ⟨so, pf⟩ := st
    have hso2 : so = .oldToNew := hso
    subst hso2
    exact jsSort_pairwise_asc pf now _
  · intro files st now hso
    obtain ⟨so, pf⟩ := st
    have hso2 : so = .newToOld := hso
    subst hso2
    exact jsSort_pairwise_desc pf now _

/-- C3 witness: the direction law instantiated at the spec's example. -/
theorem c3_witness :
    (sortedMatched
        [⟨"2023-03-01.md", "2023-03-01", "md"⟩, ⟨"2023-01-10.md", "2023-01-10", "md"⟩,
          ⟨"2023-02-20.md", "2023-02-20", "md"⟩]
        ⟨.oldToNew, "YYYY-MM-DD"⟩ ⟨2026, 10, 11⟩).Pairwise
      (fun a b => sortKey "YYYY-MM-DD" ⟨2026, 10, 11⟩ a ≤ sortKey "YYYY-MM-DD" ⟨2026, 10, 11⟩ b) :=
  c3_sort_by_direction.1 _ ⟨.oldToNew, "YYYY-MM-DD"⟩ _ rfl

/-- C4 counterexample: with two matched documents sharing the same basename
(hence equal date keys) in different folders, the stable sort keeps input
order in both directions, so the ascending result is not the reverse of the
descending result — the claim's two requirements contradict each other on
equal keys. -/
theorem c4_reverse_counterexample :
    ¬ (sortedMatched
          [⟨"a/2023-01-01.md", "2023-01-01", "md"⟩, ⟨"b/2023-01-01.md", "2023-01-01", "md"⟩]
          ⟨.oldToNew, "YYYY-MM-DD"⟩ ⟨2026, 10, 11⟩
        = (sortedMatched
            [⟨"a/2023-01-01.md", "2023-01-01", "md"⟩, ⟨"b/2023-01-01.md", "2023-01-01", "md"⟩]
            ⟨.newToOld, "YYYY-MM-DD"⟩ ⟨2026, 10, 11⟩).reverse) := by decide

/-- C4 amended: the sort is stable and total — equal-key entries keep their
original relative order from the filtered input in both directions, and
whenever the matched documents have pairwise distinct keys the ascending
and descending results are exact reverses of each other. -/
theorem c4_stable_and_reverse_on_distinct :
    (∀ (files : List Doc) (p : String) (now : DateKey),
        ((dateFilter (mdFiles files) p now).map (sortKey p now)).Nodup →
        sortedMatched files ⟨.oldToNew, p⟩ now
          = (sortedMatched files ⟨.newToOld, p⟩ now).reverse)
    ∧ (∀ (files : List Doc) (st : Settings) (now : DateKey) (k : Nat),
        (sortedMatched files st now).filter (fun f => sortKey st.dateFormat now f == k)
          = (dateFilter (mdFiles files) st.dateFormat now).filter
              (fun f => sortKey st.dateFormat now f == k)) :=
  ⟨fun _files p now hnd => jsSort_reverse_of_nodup p now _ hnd,
    fun _files st now k => jsSort_filter_key st now _ k⟩

/-- C4 witness: with distinct keys the two directions are exact
reverses. -/
theorem c4_witness :
    ((dateFilter (mdFiles [⟨"2023-03-01.md", "2023-03-01", "md"⟩,
          ⟨"2023-01-10.md", "2023-01-10", "md"⟩]) "YYYY-MM-DD" ⟨2026, 10, 11⟩).map
        (sortKey "YYYY-MM-DD" ⟨2026, 10, 11⟩)).Nodup
    ∧ sortedMatched [⟨"2023-03-01.md", "2023-03-01", "md"⟩, ⟨"2023-01-10.md", "2023-01-10", "md"⟩]
        ⟨.oldToNew, "YYYY-MM-DD"⟩ ⟨2026, 10, 11⟩
      = (sortedMatched [⟨"2023-03-01.md", "2023-03-01", "md"⟩, ⟨"2023-01-10.md", "2023-01-10", "md"⟩]
          ⟨.newToOld, "YYYY-MM-DD"⟩ ⟨2026, 10, 11⟩).reverse :=
  ⟨by decide, c4_stable_and_reverse_on_distinct.1 _ _ _ (by decide)⟩

end DailyViewer
